import Mathlib

/-!
Verification of `provision.py` against its specification.

The file shallowly embeds the two core components of the script:

* `parse_inventory` — the inventory parser.  The Python function reads the
  file through `csv.reader`; the csv tokenizer is an external library
  collaborator, so the embedding takes the reader's output (a list of rows,
  each row a list of string fields) as input, enumerated from 1 exactly as
  `enumerate(reader, start=1)` does.  The stdlib validator
  `ipaddress.ip_address` is likewise external and is passed in as a boolean
  predicate `isIP` (the Python code only observes whether it raises).  The
  string primitives the parser uses — `str.strip`, `str.split(",", 1)`,
  `str.startswith("#")` — are embedded as structural recursion on the
  character list of the string.
* `do_action` — the per-host provisioning worker.  Its two effectful
  sub-steps, `float(timeout)` and `mock_api_call` (which either returns a
  success dict or lets a `requests` exception escape), are modelled by a
  boolean `timeoutOk` (the same string is converted on every attempt, so it
  either always converts or always raises) and an oracle
  `Nat → Except String Unit` giving each attempt's result.  `do_action`
  returns the outcome dictionary together with the number of remote calls
  actually issued.
* the dispatcher pieces of `main` — pool sizing (`max_workers`) and the
  `as_completed` collection loop (`collectLoop`), which turns a worker
  exception into the synthetic failure dictionary of line 155.

Python dictionaries are modelled by structures whose optional keys are
`Option` fields (`none` = key absent).  The status strings "dry-run",
"completed" and "failed" correspond to the spec's enum values DryRun,
Completed and Failed.
-/

/-- Python whitespace as `str.strip` removes it (ASCII part). -/
def pyIsSpace (c : Char) : Bool :=
  c == ' ' || c == '\t' || c == '\n' || c == '\r' || c == '\x0b' || c == '\x0c'

/-- Strip `pyIsSpace` characters from both ends of a character list. -/
def stripChars (l : List Char) : List Char :=
  ((l.dropWhile pyIsSpace).reverse.dropWhile pyIsSpace).reverse

/-- Python `s.strip()`. -/
def pyStrip (s : String) : String := String.mk (stripChars s.data)

/-- Python `s.startswith("#")`. -/
def startsWithHash (s : String) : Bool :=
  match s.data with
  | [] => false
  | c :: _ => c == '#'

/-- Split a character list at the first occurrence of `sep` only: the list
of parts `s.split(sep, 1)` produces. -/
def splitOnce (sep : Char) : List Char → List (List Char)
  | [] => [[]]
  | c :: cs =>
    if c == sep then [[], cs]
    else
      match splitOnce sep cs with
      | [] => [[c]]
      | x :: xs => (c :: x) :: xs

/-- Python `s.split(",", 1)`: split on the first comma only; a string with no
comma stays whole. -/
def splitOnceComma (s : String) : List String :=
  (splitOnce ',' s.data).map (fun l => String.mk l)

/-- A parse diagnostic: the Python tuple `(i, row, reason)` appended to
`errors` in `parse_inventory`.  `row` is the csv row as the code stores it. -/
structure ParseError where
  lineNum : Nat
  row : List String
  reason : String
deriving Repr, DecidableEq

/-- What a single csv row contributes: one valid record, one diagnostic, or
nothing (the `continue` paths without an append). -/
inductive RowResult where
  | record : String × String → RowResult
  | diag : ParseError → RowResult
  | skip : RowResult
deriving Repr, DecidableEq

/-- Lines 84–95 of `parse_inventory`: the empty-candidate silent drop, the IP
validation with its `"invalid IP: <value>"` diagnostic, and the append of a
valid `(hostname, ip_str)` record. -/
def finishRow (isIP : String → Bool) (i : Nat) (row : List String)
    (hostname ip_str : String) : RowResult :=
  if hostname = "" ∨ ip_str = "" then RowResult.skip
  else if isIP ip_str = true then RowResult.record (hostname, ip_str)
  else RowResult.diag ⟨i, row, "invalid IP: " ++ ip_str⟩

/-- Lines 63–95 of `parse_inventory`, for one row: skip empty rows, skip
comment rows, take the first two fields when there are at least two
(extras ignored), otherwise fall back to splitting the single field once on
its first comma, diagnosing `"expected 'hostname,ip'"` when that yields a
single part. -/
def classifyRow (isIP : String → Bool) (i : Nat) (row : List String) : RowResult :=
  match row with
  | [] => RowResult.skip
  | [single] =>
    if pyStrip single = "" then RowResult.skip
    else if startsWithHash (pyStrip single) = true then RowResult.skip
    else
      match splitOnceComma single with
      | [p, q] => finishRow isIP i row (pyStrip p) (pyStrip q)
      | _ => RowResult.diag ⟨i, row, "expected 'hostname,ip'"⟩
  | first :: second :: _ =>
    if startsWithHash (pyStrip first) = true then RowResult.skip
    else finishRow isIP i row (pyStrip first) (pyStrip second)

/-- The accumulating loop of `parse_inventory`: rows are consumed in order,
records appended to `valid` and diagnostics to `errors`. -/
def parseLoop (isIP : String → Bool) :
    Nat → List (List String) → List (String × String) → List ParseError →
      List (String × String) × List ParseError
  | _, [], valid, errors => (valid, errors)
  | i, row :: rest, valid, errors =>
    match classifyRow isIP i row with
    | RowResult.record x => parseLoop isIP (i + 1) rest (valid ++ [x]) errors
    | RowResult.diag d => parseLoop isIP (i + 1) rest valid (errors ++ [d])
    | RowResult.skip => parseLoop isIP (i + 1) rest valid errors

/-- `parse_inventory` (lines 52–97): rows enumerated from 1, empty
accumulators, returns `(valid, errors)`. -/
def parse_inventory (isIP : String → Bool) (rows : List (List String)) :
    List (String × String) × List ParseError :=
  parseLoop isIP 1 rows [] []

/-- Compositional restatement of the parse loop: each row contributes its
classification independently, in order. -/
def parseRows (isIP : String → Bool) (i : Nat) :
    List (List String) → List (String × String) × List ParseError
  | [] => ([], [])
  | row :: rest =>
    let r := parseRows isIP (i + 1) rest
    match classifyRow isIP i row with
    | RowResult.record x => (x :: r.1, r.2)
    | RowResult.diag d => (r.1, d :: r.2)
    | RowResult.skip => r

theorem parseLoop_eq (isIM : String → Bool) (rows : List (List String)) :
    ∀ i valid errors, parseLoop isIM i rows valid errors =
      (valid ++ (parseRows isIM i rows).1, errors ++ (parseRows isIM i rows).2) := by
  induction rows with
  | nil => intro i v e; simp [parseLoop, parseRows]
  | cons row rest ih =>
    intro i v e
    cases h : classifyRow isIM i row with
    | record x => simp [parseLoop, parseRows, h, ih]
    | diag d => simp [parseLoop, parseRows, h, ih]
    | skip => simp [parseLoop, parseRows, h, ih]

theorem parse_inventory_eq (isIM : String → Bool) (rows : List (List String)) :
    parse_inventory isIM rows = parseRows isIM 1 rows := by
  simp [parse_inventory, parseLoop_eq]

theorem parseRows_append (isIM : String → Bool) (xs ys : List (List String)) :
    ∀ i, parseRows isIM i (xs ++ ys) =
      ((parseRows isIM i xs).1 ++ (parseRows isIM (i + xs.length) ys).1,
       (parseRows isIM i xs).2 ++ (parseRows isIM (i + xs.length) ys).2) := by
  induction xs with
  | nil => intro i; simp [parseRows]
  | cons row rest ih =>
    intro i
    have hidx : i + (row :: rest).length = (i + 1) + rest.length := by
      simp [List.length_cons]; omega
    rw [hidx, List.cons_append]
    cases h : classifyRow isIM i row with
    | record x => simp [parseRows, h, ih]
    | diag d => simp [parseRows, h, ih]
    | skip => simp [parseRows, h, ih]

theorem parseRows_single (isIM : String → Bool) (j : Nat) (row : List String) :
    parseRows isIM j [row] =
      match classifyRow isIM j row with
      | RowResult.record x => ([x], [])
      | RowResult.diag d => ([], [d])
      | RowResult.skip => ([], []) := by
  cases h : classifyRow isIM j row <;> simp [parseRows, h]

/-- Decomposition of a parse run around one distinguished row: the output is
the contribution of the rows before it, then its own contribution (its line
number is `pre.length + 1`), then the contribution of the rows after it. -/
theorem parse_context (isIM : String → Bool) (pre post : List (List String)) (row : List String) :
    parse_inventory isIM (pre ++ row :: post) =
      ((parseRows isIM 1 pre).1 ++ (parseRows isIM (pre.length + 1) [row]).1 ++
         (parseRows isIM (pre.length + 2) post).1,
       (parseRows isIM 1 pre).2 ++ (parseRows isIM (pre.length + 1) [row]).2 ++
         (parseRows isIM (pre.length + 2) post).2) := by
  have hsplit : pre ++ row :: post = pre ++ ([row] ++ post) := by simp
  rw [parse_inventory_eq, hsplit, parseRows_append isIM pre ([row] ++ post) 1,
    parseRows_append isIM [row] post (1 + pre.length)]
  have e1 : 1 + pre.length = pre.length + 1 := Nat.add_comm 1 pre.length
  have e2 : pre.length + 1 + ([row] : List (List String)).length = pre.length + 2 := by
    simp
  rw [e1, e2]
  simp [List.append_assoc]

theorem parseRows_length (isIM : String → Bool) (rows : List (List String)) :
    ∀ i, (parseRows isIM i rows).1.length + (parseRows isIM i rows).2.length ≤ rows.length := by
  induction rows with
  | nil => intro i; simp [parseRows]
  | cons row rest ih =>
    intro i
    cases h : classifyRow isIM i row <;> simp [parseRows, h] <;>
      have := ih (i + 1) <;> omega

/-- Modelled from the spec: a stand-in instance for the external stdlib
validator `ipaddress.ip_address` ("validated as a syntactically valid IPv4 or
IPv6 literal"), restricted to IPv4 dotted-quad literals (1–3 digits per
octet, no extra leading zero, value at most 255).  It and its helpers below
are used only to instantiate the validator parameter `isIP` in concrete
witnesses and counterexamples; every general theorem quantifies over the
validator.  `splitChars` is Python `str.split(sep)` on a character list. -/
def splitChars (sep : Char) : List Char → List (List Char)
  | [] => [[]]
  | c :: cs =>
    if c == sep then [] :: splitChars sep cs
    else
      match splitChars sep cs with
      | [] => [[c]]
      | x :: xs => (c :: x) :: xs

/-- Modelled from the spec: numeric value of a digit run, see `splitChars`. -/
def octetVal (l : List Char) : Nat := l.foldl (fun a c => a * 10 + (c.toNat - 48)) 0

/-- Modelled from the spec: one IPv4 octet of the stand-in validator. -/
def ipv4Octet (l : List Char) : Bool :=
  decide (0 < l.length) && decide (l.length ≤ 3) && l.all Char.isDigit &&
    (match l with
     | [_] => true
     | c :: _ => c != '0'
     | [] => false) &&
    decide (octetVal l ≤ 255)

/-- Modelled from the spec: IPv4 half of the external address validator. -/
def ipv4Valid (s : String) : Bool :=
  match splitChars '.' s.data with
  | [a, b, c, d] => ipv4Octet a && ipv4Octet b && ipv4Octet c && ipv4Octet d
  | _ => false

/-- A provisioning outcome dictionary.  `attempts` and `error` are the two
keys that not every dict in the script carries; `none` models an absent key. -/
structure Outcome where
  hostname : String
  ip : String
  status : String
  attempts : Option Int
  error : Option String
deriving Repr, DecidableEq

/-- One iteration's body at line 185: `float(timeout)` is evaluated first and
raises on every attempt or on none (`timeoutOk`); only when it converts is
the remote call issued, whose result the oracle gives. -/
def attemptOnce (timeoutOk : Bool) (oracle : Nat → Except String Unit)
    (attempt : Nat) : Except String Unit :=
  if timeoutOk then oracle attempt else Except.error "could not convert string to float"

/-- Number of iterations of `while attempt <= retries` with `attempt`
starting at 0 and incremented at the top of the body. -/
def loopIterations (retries : Int) : Nat := (retries + 1).toNat

/-- The retry loop of `do_action` (lines 179–188), returning the number of
remote calls issued.  Both the success and the exception branch fall through
to the next iteration — the code never breaks on success, the exception is
only logged.  A call is counted whenever `float(timeout)` converted, whether
or not the call itself raised. -/
def runAttempts (timeoutOk : Bool) (oracle : Nat → Except String Unit) :
    Nat → Nat → Nat → Nat
  | 0, _, calls => calls
  | fuel + 1, attempt, calls =>
    match attemptOnce timeoutOk oracle (attempt + 1) with
    | Except.ok _ =>
      runAttempts timeoutOk oracle fuel (attempt + 1) (if timeoutOk then calls + 1 else calls)
    | Except.error _ =>
      runAttempts timeoutOk oracle fuel (attempt + 1) (if timeoutOk then calls + 1 else calls)

/-- `do_action` (lines 159–190): the dry-run fast path returns the
`{status: "dry-run", attempts: 0}` dict with no remote call; otherwise the
retry loop runs and the function returns `{status: "completed",
attempts: retries}` unconditionally.  The second component is the number of
remote calls issued.  `api_url` and `api_key` only feed the remote call the
oracle abstracts, so the result does not depend on them. -/
def do_action (hostname ip api_url api_key : String) (dry_run : Bool)
    (retries : Int) (timeoutOk : Bool) (oracle : Nat → Except String Unit) :
    Outcome × Nat :=
  if dry_run then
    ({ hostname := hostname, ip := ip, status := "dry-run", attempts := some 0,
       error := none }, 0)
  else
    let calls := runAttempts timeoutOk oracle (loopIterations retries) 0 0
    ({ hostname := hostname, ip := ip, status := "completed", attempts := some retries,
       error := none }, calls)

theorem runAttempts_eq (t : Bool) (oracle : Nat → Except String Unit) (fuel : Nat) :
    ∀ attempt calls, runAttempts t oracle fuel attempt calls =
      calls + (if t then fuel else 0) := by
  induction fuel with
  | zero => intro a c; simp [runAttempts]
  | succ fuel ih =>
    intro a c
    simp only [runAttempts]
    cases attemptOnce t oracle (a + 1) <;>
      · rw [ih]
        cases t <;> simp <;> omega

/-- `main`'s submission of one worker invocation per valid entry (lines
132–145): the futures, in submission order, paired with their entry. -/
def runAll (entries : List (String × String)) (api_url api_key : String)
    (dry_run : Bool) (retries : Int) (timeoutOk : Bool)
    (oracles : String × String → Nat → Except String Unit) : List (Outcome × Nat) :=
  entries.map (fun e => do_action e.1 e.2 api_url api_key dry_run retries timeoutOk (oracles e))

/-- The body of `main`'s `as_completed` loop (lines 147–155): a future that
returned yields its result; one that raised yields the synthetic dict
`{"hostname", "ip", "status": "failed", "error"}` of line 155, which carries
no `attempts` key. -/
def collectOutcome (hostname ip : String) (res : Except String Outcome) : Outcome :=
  match res with
  | Except.ok r => r
  | Except.error exc =>
    { hostname := hostname, ip := ip, status := "failed", attempts := none,
      error := some exc }

/-- The whole collection loop: `as_completed` hands back every submitted
future exactly once, in some completion order; `completedOrder` is that
order (a permutation of the submitted entries). -/
def collectLoop (worker : String × String → Except String Outcome)
    (completedOrder : List (String × String)) : List Outcome :=
  completedOrder.map (fun e => collectOutcome e.1 e.2 (worker e))

/-- Python `min(a, b, c)` as `main` uses it. -/
def pyMin3 (a b c : Int) : Int := min (min a b) c

/-- Line 128: `max_workers = max(1, min(args.concurrency, len(valid_entries), 256))`. -/
def max_workers (concurrency : Int) (n : Nat) : Int :=
  max 1 (pyMin3 concurrency (n : Int) 256)

/-- Claim C1 (code evaluation at the failing input): with `dryRun = false`,
`maxRetries = 1` and a remote call that succeeds on its very first attempt,
`do_action` still issues 2 calls — the success does not terminate the loop —
and returns `{status: "completed", attempts: 1}` (always `retries`, not the
attempts used); with every attempt failing it returns the very same
`"completed"` dict instead of `{status: Failed, attempts: 2, error: ...}`. -/
theorem do_action_ignores_success_and_never_fails :
    do_action "host1" "192.168.0.5" "https://api.example.local/" "" false 1 true
        (fun _ => Except.ok ()) =
      ({ hostname := "host1", ip := "192.168.0.5", status := "completed",
         attempts := some 1, error := none }, 2)
    ∧ do_action "host1" "192.168.0.5" "https://api.example.local/" "" false 1 true
        (fun _ => Except.error "503") =
      ({ hostname := "host1", ip := "192.168.0.5", status := "completed",
         attempts := some 1, error := none }, 2) := by
  constructor <;> rfl

/-- Claim C10: with `dryRun = false`, `do_action` never lets an exception out
of its retry loop — whatever the oracle raises on any attempt, and even when
`float(timeout)` raises on every attempt (`timeoutOk = false`), the function
returns the completed-outcome dictionary; the call count is the full
iteration count when the timeout converts and 0 when it never does. -/
theorem do_action_total_no_exception (hostname ip api_url api_key : String)
    (retries : Int) (timeoutOk : Bool) (oracle : Nat → Except String Unit) :
    do_action hostname ip api_url api_key false retries timeoutOk oracle =
      ({ hostname := hostname, ip := ip, status := "completed",
         attempts := some retries, error := none },
       if timeoutOk then loopIterations retries else 0) := by
  simp [do_action, runAttempts_eq]

/-- Claim C3: with `dryRun = true`, `do_action` makes no remote call and
returns `{status: "dry-run", attempts: 0}` immediately, for any `retries`;
consequently a dry run over a record list yields one such outcome per record
and zero remote calls in total. -/
theorem dry_run_no_calls (entries : List (String × String)) (api_url api_key : String)
    (retries : Int) (timeoutOk : Bool)
    (oracles : String × String → Nat → Except String Unit) :
    (∀ hostname ip oracle, do_action hostname ip api_url api_key true retries timeoutOk oracle =
      ({ hostname := hostname, ip := ip, status := "dry-run", attempts := some 0,
         error := none }, 0))
    ∧ (runAll entries api_url api_key true retries timeoutOk oracles).length = entries.length
    ∧ (∀ r, r ∈ runAll entries api_url api_key true retries timeoutOk oracles →
        r.1.status = "dry-run" ∧ r.1.attempts = some 0 ∧ r.2 = 0) := by
  refine ⟨fun hostname ip oracle => by simp [do_action], by simp [runAll], ?_⟩
  intro r hr
  simp only [runAll, List.mem_map] at hr
  obtain ⟨e, _, rfl⟩ := hr
  simp [do_action]

theorem dry_run_no_calls_witness :
    runAll [("host1", "192.168.1.10")] "" "" true 5 true (fun _ _ => Except.error "x") =
      [({ hostname := "host1", ip := "192.168.1.10", status := "dry-run",
          attempts := some 0, error := none }, 0)] := by
  have h := (dry_run_no_calls [("host1", "192.168.1.10")] "" "" 5 true
    (fun _ _ => Except.error "x")).1
  simp [runAll, h "host1" "192.168.1.10" (fun _ => Except.error "x")]

/-- Claim C2 (counterexample): the synthetic outcome built at line 155 for a
worker invocation that raised carries no `attempts` key at all, so its
attempts value is not 0 as the claim states. -/
theorem synthetic_failure_has_no_attempts_field :
    (collectOutcome "h" "1.2.3.4" (Except.error "boom")).attempts = none
    ∧ (collectOutcome "h" "1.2.3.4" (Except.error "boom")).attempts ≠ some 0 := by
  constructor <;> decide

/-- Claim C2 (amended): for any completion order of the submitted futures —
any permutation of the valid-entry list — the dispatcher collects exactly one
outcome per record (equal cardinality, indeed a permutation of the per-entry
outcomes), and a worker invocation that raised is converted to the synthetic
failed outcome carrying the error message and no attempts field, so the loop
neither crashes nor abandons remaining submissions. -/
theorem dispatcher_one_outcome_per_record (entries completedOrder : List (String × String))
    (worker : String × String → Except String Outcome)
    (hperm : completedOrder.Perm entries) :
    (collectLoop worker completedOrder).length = entries.length
    ∧ (collectLoop worker completedOrder).Perm
        (entries.map (fun e => collectOutcome e.1 e.2 (worker e)))
    ∧ (∀ hostname ip msg, (hostname, ip) ∈ entries →
        worker (hostname, ip) = Except.error msg →
        ({ hostname := hostname, ip := ip, status := "failed", attempts := none,
           error := some msg } : Outcome) ∈ collectLoop worker completedOrder) := by
  refine ⟨?_, ?_, ?_⟩
  · simp [collectLoop, hperm.length_eq]
  · exact hperm.map _
  · intro hostname ip msg hmem hw
    have hmem2 : (hostname, ip) ∈ completedOrder := hperm.mem_iff.mpr hmem
    have hco : collectOutcome hostname ip (worker (hostname, ip)) =
        { hostname := hostname, ip := ip, status := "failed", attempts := none,
          error := some msg } := by
      rw [hw]; rfl
    simpa [collectLoop, hco] using List.mem_map_of_mem
      (fun e => collectOutcome e.1 e.2 (worker e)) hmem2

theorem dispatcher_one_outcome_per_record_witness :
    (collectLoop (fun _ => Except.error "boom") [("h", "1.2.3.4")]).length = 1
    ∧ ({ hostname := "h", ip := "1.2.3.4", status := "failed", attempts := none,
         error := some "boom" } : Outcome) ∈
        collectLoop (fun _ => Except.error "boom") [("h", "1.2.3.4")] := by
  have h := dispatcher_one_outcome_per_record [("h", "1.2.3.4")] [("h", "1.2.3.4")]
    (fun _ => Except.error "boom") (List.Perm.refl _)
  exact ⟨h.1, h.2.2 "h" "1.2.3.4" "boom" (by simp) rfl⟩

/-- Claim C8: for a non-empty record list, the effective worker-pool size of
line 128 equals `max(1, min(concurrency, n, 256))`; in particular 3 workers
for concurrency 12 over 3 records. -/
theorem max_workers_clamp (c : Int) (n : Nat) (hn : 0 < n) :
    max_workers c n = max 1 (min c (min (n : Int) 256)) ∧ max_workers 12 3 = 3 := by
  constructor
  · simp [max_workers, pyMin3, min_assoc]
  · decide

theorem max_workers_clamp_witness :
    max_workers 12 3 = max 1 (min 12 (min ((3 : Nat) : Int) 256)) ∧ max_workers 12 3 = 3 :=
  max_workers_clamp 12 3 (by decide)

/-- Claim C4 (counterexample): the diagnostic the parser emits for an invalid
address literal reads `"invalid IP: <value>"`, not `"invalid address: <value>"`
as the claim states. -/
theorem invalid_ip_reason_literal :
    (parse_inventory ipv4Valid [["invalid-host4", "999.999.999"]]).2.map ParseError.reason =
      ["invalid IP: 999.999.999"]
    ∧ (parse_inventory ipv4Valid [["invalid-host4", "999.999.999"]]).2.map ParseError.reason ≠
      ["invalid address: 999.999.999"] := by
  constructor <;> decide

/-- Claim C4 (amended): for every row whose trimmed hostname candidate is
non-empty and not a comment marker and whose trimmed address candidate is
non-empty but rejected by the validator, the parse emits zero records and
exactly one diagnostic for that row, with reason `"invalid IP: <value>"`
where `<value>` is the trimmed address candidate. -/
theorem parse_invalid_ip_one_diagnostic (isIM : String → Bool)
    (pre post : List (List String)) (hn addr : String) (rest : List String)
    (hc : startsWithHash (pyStrip hn) = false) (h1 : pyStrip hn ≠ "")
    (h2 : pyStrip addr ≠ "") (h3 : isIM (pyStrip addr) = false) :
    parse_inventory isIM (pre ++ (hn :: addr :: rest) :: post) =
      ((parseRows isIM 1 pre).1 ++ (parseRows isIM (pre.length + 2) post).1,
       (parseRows isIM 1 pre).2 ++
         (⟨pre.length + 1, hn :: addr :: rest, "invalid IP: " ++ pyStrip addr⟩ : ParseError) ::
           (parseRows isIM (pre.length + 2) post).2) := by
  rw [parse_context]
  have hcl : classifyRow isIM (pre.length + 1) (hn :: addr :: rest) =
      RowResult.diag ⟨pre.length + 1, hn :: addr :: rest, "invalid IP: " ++ pyStrip addr⟩ := by
    simp [classifyRow, finishRow, hc, h1, h2, h3]
  simp [parseRows_single, hcl]

theorem parse_invalid_ip_one_diagnostic_witness :
    parse_inventory ipv4Valid [["invalid-host4", "999.999.999"]] =
      ([], [⟨1, ["invalid-host4", "999.999.999"], "invalid IP: 999.999.999"⟩]) := by
  have h := parse_invalid_ip_one_diagnostic ipv4Valid [] [] "invalid-host4" "999.999.999" []
    (by decide) (by decide) (by decide) (by decide)
  simp [parseRows] at h
  rw [h]
  decide

/-- Claim C5 (counterexample): a single-field row whose field splits on its
first comma into a part that is empty — here `"a,"`, whose split is
`["a", ""]` — is silently dropped, with no MalformedLine diagnostic, contrary
to the claim; and the diagnostic a comma-free single field does get reads
`"expected 'hostname,ip'"`, not `"expected 'hostname,address'"`. -/
theorem single_field_fallback_behavior :
    parse_inventory ipv4Valid [["a,"]] = ([], [])
    ∧ (parse_inventory ipv4Valid [["invalid line"]]).2.map ParseError.reason =
      ["expected 'hostname,ip'"]
    ∧ (parse_inventory ipv4Valid [["invalid line"]]).2.map ParseError.reason ≠
      ["expected 'hostname,address'"] := by
  refine ⟨by decide, by decide, by decide⟩

/-- Claim C5 (amended): a non-blank, non-comment row with exactly one field
is split once on the field's first comma; when the split yields two parts
they are used as the hostname and address candidates whether or not they are
empty (an empty trimmed candidate then falls to the silent empty-field
drop), and only when the split yields a single part (no embedded comma) does
the parse record exactly one MalformedLine diagnostic, carrying the row and
the reason `"expected 'hostname,ip'"`, and continue with the next row. -/
theorem parse_single_field_fallback (isIM : String → Bool)
    (pre post : List (List String)) (s : String) (i : Nat)
    (hne : pyStrip s ≠ "") (hc : startsWithHash (pyStrip s) = false) :
    (splitOnceComma s = [s] →
      parse_inventory isIM (pre ++ [s] :: post) =
        ((parseRows isIM 1 pre).1 ++ (parseRows isIM (pre.length + 2) post).1,
         (parseRows isIM 1 pre).2 ++
           (⟨pre.length + 1, [s], "expected 'hostname,ip'"⟩ : ParseError) ::
             (parseRows isIM (pre.length + 2) post).2))
    ∧ (∀ p q, splitOnceComma s = [p, q] →
        classifyRow isIM i [s] = finishRow isIM i [s] (pyStrip p) (pyStrip q)) := by
  constructor
  · intro hsplit
    rw [parse_context]
    have hcl : classifyRow isIM (pre.length + 1) [s] =
        RowResult.diag ⟨pre.length + 1, [s], "expected 'hostname,ip'"⟩ := by
      simp [classifyRow, hne, hc, hsplit]
    simp [parseRows_single, hcl]
  · intro p q hsplit
    simp [classifyRow, hne, hc, hsplit]

theorem parse_single_field_fallback_witness :
    parse_inventory ipv4Valid [["invalid line"]] =
      ([], [⟨1, ["invalid line"], "expected 'hostname,ip'"⟩]) := by
  have h := (parse_single_field_fallback ipv4Valid [] [] "invalid line" 1
    (by decide) (by decide)).1 (by decide)
  simp [parseRows] at h
  rw [h]

/-- Claim C6: a row whose first field trims to a non-empty, non-comment
hostname and whose second field trims to a non-empty address accepted by the
validator contributes exactly one record — the trimmed pair — and zero
diagnostics, with any fields beyond the second ignored and the record placed
between the contributions of the surrounding rows (input order preserved). -/
theorem parse_wellformed_one_record (isIM : String → Bool)
    (pre post : List (List String)) (hn addr : String) (rest : List String)
    (hc : startsWithHash (pyStrip hn) = false) (h1 : pyStrip hn ≠ "")
    (h2 : pyStrip addr ≠ "") (h3 : isIM (pyStrip addr) = true) :
    parse_inventory isIM (pre ++ (hn :: addr :: rest) :: post) =
      ((parseRows isIM 1 pre).1 ++ (pyStrip hn, pyStrip addr) ::
         (parseRows isIM (pre.length + 2) post).1,
       (parseRows isIM 1 pre).2 ++ (parseRows isIM (pre.length + 2) post).2) := by
  rw [parse_context]
  have hcl : classifyRow isIM (pre.length + 1) (hn :: addr :: rest) =
      RowResult.record (pyStrip hn, pyStrip addr) := by
    simp [classifyRow, finishRow, hc, h1, h2, h3]
  simp [parseRows_single, hcl]

theorem parse_wellformed_one_record_witness :
    parse_inventory ipv4Valid [["host1", "192.168.1.10"]] =
      ([("host1", "192.168.1.10")], []) := by
  have h := parse_wellformed_one_record ipv4Valid [] [] "host1" "192.168.1.10" []
    (by decide) (by decide) (by decide) (by decide)
  simp [parseRows] at h
  rw [h]
  decide

/-- Claim C7: a row that is blank (empty, or one field of only whitespace),
a comment (first field starting with `#` after trimming), a row whose
hostname or address candidate trims to empty, or a single-field row whose
comma-split parts trim to empty, contributes neither a record nor a
diagnostic: the parse output is exactly the merge of the surrounding rows'
contributions. -/
theorem parse_silent_skip (isIM : String → Bool) (pre post : List (List String))
    (row : List String)
    (hcase : row = []
      ∨ (∃ s, row = [s] ∧ pyStrip s = "")
      ∨ (∃ f rs, row = f :: rs ∧ startsWithHash (pyStrip f) = true)
      ∨ (∃ a b rs, row = a :: b :: rs ∧ (pyStrip a = "" ∨ pyStrip b = ""))
      ∨ (∃ s p q, row = [s] ∧ splitOnceComma s = [p, q] ∧ (pyStrip p = "" ∨ pyStrip q = ""))) :
    parse_inventory isIM (pre ++ row :: post) =
      ((parseRows isIM 1 pre).1 ++ (parseRows isIM (pre.length + 2) post).1,
       (parseRows isIM 1 pre).2 ++ (parseRows isIM (pre.length + 2) post).2) := by
  have hskip : classifyRow isIM (pre.length + 1) row = RowResult.skip := by
    rcases hcase with rfl | ⟨s, rfl, hs⟩ | ⟨f, rs, rfl, hf⟩ | ⟨a, b, rs, rfl, hab⟩ |
      ⟨s, p, q, rfl, hsp, hpq⟩
    · simp [classifyRow]
    · simp [classifyRow, hs]
    · cases rs with
      | nil =>
        by_cases hft : pyStrip f = ""
        · simp [classifyRow, hft]
        · simp [classifyRow, hft, hf]
      | cons b rs => simp [classifyRow, hf]
    · by_cases hcb : startsWithHash (pyStrip a) = true
      · simp [classifyRow, hcb]
      · simp only [classifyRow]
        rw [if_neg hcb]
        simp only [finishRow]
        rw [if_pos hab]
    · by_cases hs0 : pyStrip s = ""
      · simp [classifyRow, hs0]
      · by_cases hsc : startsWithHash (pyStrip s) = true
        · simp [classifyRow, hs0, hsc]
        · simp only [classifyRow]
          rw [if_neg hs0, if_neg hsc, hsp]
          simp only [finishRow]
          rw [if_pos hpq]
  rw [parse_context]
  simp [parseRows_single, hskip]

theorem parse_silent_skip_witness :
    parse_inventory ipv4Valid [["# just a comment"]] = ([], []) := by
  have h := parse_silent_skip ipv4Valid [] [] ["# just a comment"]
    (Or.inr (Or.inr (Or.inl ⟨"# just a comment", [], rfl, by decide⟩)))
  simpa [parseRows] using h

/-- Claim C9: parsing is total over arbitrary csv rows — it always returns
the pair of records and diagnostics — and every row resolves to exactly one
of a record, a diagnostic, or a silent skip: the run equals the
row-by-row classification `parseRows`, so the record and diagnostic counts
together never exceed the row count. -/
theorem parse_total_classification (isIM : String → Bool) (rows : List (List String)) :
    parse_inventory isIM rows = parseRows isIM 1 rows
    ∧ (parse_inventory isIM rows).1.length + (parse_inventory isIM rows).2.length ≤
        rows.length := by
  refine ⟨parse_inventory_eq isIM rows, ?_⟩
  rw [parse_inventory_eq]
  exact parseRows_length isIM rows 1
